import Mathlib

/-!
Shallow embedding of `src/fmu/ensemble/realization.py` (fmu-ensemble).

The Python module defines two classes, `ScratchRealization` (an on-disk
realization: a directory of simulation output files) and
`VirtualRealization` (a detached in-memory counterpart), plus the numeric
coercion helper `parse_number`.

Modelling conventions:
- Python exceptions are modelled with `Except PyErr`; an uncaught
  exception is `Except.error`, a normal return is `Except.ok`.
- The filesystem (os.path.abspath, os.path.exists, glob.glob) and the
  two-column text reader (pandas.read_table in `get_parameters`) are
  external collaborators, modelled as the function fields of `Fs`.
- The compiled regular expression argument of `ScratchRealization.__init__`
  together with `int(match.group(1))` is modelled as one abstract matcher
  of type `String → Option Int` (with the default pattern
  `.*realization-(\d+)` the captured group is a digit run, so the int
  conversion never fails and the combined matcher is faithful).
- The binary summary decoder `ert.ecl.EclSum` is an opaque collaborator;
  an `EclSum` value carries its capabilities used by the core: `keys`
  (vector-name enumeration, optionally filtered by a wildcard), report-only
  `values` per vector, and the report-only `dates`.  The decoding
  constructor is a parameter `decode : String → EclSum`.  Decoder
  invocations are counted explicitly (the `Nat` component of the results
  of `get_eclsum` / `get_smryvalues`), modelling call-count
  instrumentation on the collaborator.
- Python `float` values are modelled as rationals `ℚ` (IEEE special
  values inf/nan are outside the model; `int()` applied to a finite float
  never raises, matching the rational model).
- Python truthiness of the cached `self._eclsum` field is modelled as
  `Option.isSome`: decoded summary handles are assumed truthy.
- A pandas DataFrame of summary vectors is modelled as `Table`: a set of
  column names, the per-column data, and the date index.  The file
  registry DataFrame `self.files` is modelled as a list of `FileRec`
  (`__init__` never fills the BASENAME column, so that column is
  omitted).  The dict returned by `get_parameters` is modelled as the
  association list of rows of the parameters file (duplicate keys, where
  a Python dict would keep the last occurrence, do not occur in the
  properties proved here).
-/

/-- Python exception kinds raised (or caught) in the translated code. -/
inductive PyErr
  | valueError
  | indexError
deriving DecidableEq, Repr

/-- A Python scalar as produced by `parse_number`: int, float or str. -/
inductive PyVal
  | int (i : Int)
  | float (q : ℚ)
  | str (s : String)
deriving DecidableEq, Repr

/-- Accumulator-style decimal digit run evaluation. -/
def digitsToNat : List Char → Nat → Nat
  | [], acc => acc
  | c :: cs, acc => digitsToNat cs (acc * 10 + (c.toNat - '0'.toNat))

/-- Python `str.strip()` as used by `int()` / `float()` on strings:
drop leading and trailing whitespace (ASCII whitespace; Python also
strips some unicode whitespace, not modelled). -/
def pyStripChars (cs : List Char) : List Char :=
  ((cs.dropWhile Char.isWhitespace).reverse.dropWhile Char.isWhitespace).reverse

/-- An optional sign followed by a nonempty digit run, as an integer.
This is both the accepted syntax of Python `int(str)` (underscore
separators and unicode digits are not modelled) and the exponent part
of a float literal. -/
def parseSignedDigits : List Char → Option Int
  | '+' :: r =>
    if !r.isEmpty && r.all Char.isDigit then some ((digitsToNat r 0 : Nat) : Int) else none
  | '-' :: r =>
    if !r.isEmpty && r.all Char.isDigit then some (-((digitsToNat r 0 : Nat) : Int)) else none
  | r =>
    if !r.isEmpty && r.all Char.isDigit then some ((digitsToNat r 0 : Nat) : Int) else none

/-- Python `int(value)` on a string: strip, then signed digit run;
`none` models the `ValueError` raised on any other input. -/
def pyIntParse (s : String) : Option Int :=
  parseSignedDigits (pyStripChars s.data)

/-- Rational value of a parsed float literal: sign, integer-part digits,
fraction digits, decimal exponent. -/
def ratOfParts (neg : Bool) (ip fp : List Char) (ex : Int) : ℚ :=
  let m : Int := ((digitsToNat (ip ++ fp) 0 : Nat) : Int)
  let msigned : Int := if neg then -m else m
  let e : Int := ex - (fp.length : Int)
  if 0 ≤ e then mkRat (msigned * 10 ^ e.toNat) 1
  else mkRat msigned (10 ^ (-e).toNat)

/-- Mantissa-and-exponent part of Python `float(str)` syntax, after the
optional leading sign was removed: `digits [. digits] [(e|E) signed-digits]`,
where at least one digit is present in the mantissa. -/
def pyFloatAfterSign (neg : Bool) (cs : List Char) : Option ℚ :=
  let ipRest := cs.span Char.isDigit
  match ipRest.2 with
  | [] => if ipRest.1.isEmpty then none else some (ratOfParts neg ipRest.1 [] 0)
  | '.' :: rest2 =>
    let fpRest := rest2.span Char.isDigit
    if ipRest.1.isEmpty && fpRest.1.isEmpty then none
    else
      match fpRest.2 with
      | [] => some (ratOfParts neg ipRest.1 fpRest.1 0)
      | 'e' :: r => (parseSignedDigits r).map (fun ex => ratOfParts neg ipRest.1 fpRest.1 ex)
      | 'E' :: r => (parseSignedDigits r).map (fun ex => ratOfParts neg ipRest.1 fpRest.1 ex)
      | _ => none
  | 'e' :: r =>
    if ipRest.1.isEmpty then none
    else (parseSignedDigits r).map (fun ex => ratOfParts neg ipRest.1 [] ex)
  | 'E' :: r =>
    if ipRest.1.isEmpty then none
    else (parseSignedDigits r).map (fun ex => ratOfParts neg ipRest.1 [] ex)
  | _ => none

/-- Python `float(value)` on a string: strip, optional sign, then the
numeric literal forms; `none` models the `ValueError` raised otherwise
(the special texts inf/nan accepted by Python have no rational value and
are outside the model). -/
def pyFloatParse (s : String) : Option ℚ :=
  match pyStripChars s.data with
  | '+' :: r => pyFloatAfterSign false r
  | '-' :: r => pyFloatAfterSign true r
  | r => pyFloatAfterSign false r

/-- Python `int(value)` on a (finite) float: truncation toward zero. -/
def pyTrunc (q : ℚ) : Int :=
  q.num.tdiv q.den

/-- Translation of the module-level `parse_number(value)`.

If the input is an int it is returned unchanged; if it is a float it is
collapsed to an int when `int(value) == value`; if it is a string the
code tries `int(value)`, catches `ValueError` and tries `float(value)`,
catches `ValueError` and returns the string unchanged.  The two string
parsers model the only statements that can raise, and both of their
`ValueError`s are caught, so no `Except.error` is ever produced. -/
def parse_number (value : PyVal) : Except PyErr PyVal :=
  match value with
  | PyVal.int i => Except.ok (PyVal.int i)
  | PyVal.float q =>
    if mkRat (pyTrunc q) 1 = q then Except.ok (PyVal.int (pyTrunc q))
    else Except.ok (PyVal.float q)
  | PyVal.str s =>
    match pyIntParse s with
    | some i => Except.ok (PyVal.int i)
    | none =>
      match pyFloatParse s with
      | some q => Except.ok (PyVal.float q)
      | none => Except.ok (PyVal.str s)

/-- Filesystem and file-reading collaborators used by the realization
code: `os.path.abspath`, `os.path.exists`, `glob.glob` (returning its
matches in glob order), and the parsed two-column content that
`pandas.read_table(..., sep=whitespace, index_col=0, dtype=str)` yields
for a given path in `get_parameters`. -/
structure Fs where
  abspath : String → String
  pathExists : String → Bool
  glob : String → List String
  readParams : String → List (String × String)

/-- Model of `os.path.join(a, b)` for a relative second component. -/
def joinPath (a b : String) : String :=
  a ++ "/" ++ b

/-- One row of the `self.files` registry DataFrame.  The BASENAME column
is never populated by `__init__` and is omitted. -/
structure FileRec where
  fullpath : String
  filetype : String
  localpath : String
deriving DecidableEq, Repr

/-- Capabilities of a decoded `ert.ecl.EclSum` handle used by the core:
`keys` enumerates vector names, optionally filtered by a wildcard
pattern (`none` is Python `None`, meaning all names); `values` gives the
report-only values of one vector; `dates` the report-only dates
(modelled as opaque naturals). -/
structure EclSum where
  keys : Option String → List String
  values : String → List ℚ
  dates : List Nat

/-- State of a `ScratchRealization` instance: the original path, the
realization index, the file registry, and the `self._eclsum` cache
placeholder. -/
structure ScratchRealization where
  origpath : String
  index : Int
  files : List FileRec
  eclsum : Option EclSum

/-- Translation of `ScratchRealization.__init__(path, realidxregexp)`.

The abstract matcher `realidxregexp` models `re.match` plus
`int(match.group(1))`.  No match raises `ValueError`; a missing STATUS
file raises `ValueError`; otherwise the registry is populated with the
STATUS row and, opportunistically, rows for `jobs.json` and
`parameters.txt` when those files exist.  No file content is read. -/
def ScratchRealization.init (fs : Fs) (realidxregexp : String → Option Int) (path : String) :
    Except PyErr ScratchRealization :=
  let abspath := fs.abspath path
  match realidxregexp abspath with
  | none => Except.error PyErr.valueError
  | some idx =>
    if fs.pathExists (joinPath abspath "STATUS") then
      let files0 : List FileRec :=
        [{ fullpath := joinPath abspath "STATUS", filetype := "STATUS", localpath := "STATUS" }]
      let files1 : List FileRec :=
        if fs.pathExists (joinPath abspath "jobs.json") then
          files0 ++ [{ fullpath := joinPath abspath "jobs.json", filetype := "json",
                       localpath := "jobs.json" }]
        else files0
      let files2 : List FileRec :=
        if fs.pathExists (joinPath abspath "parameters.txt") then
          files1 ++ [{ fullpath := joinPath abspath "parameters.txt", filetype := "txt",
                       localpath := "parameters.txt" }]
        else files1
      Except.ok { origpath := path, index := idx, files := files2, eclsum := none }
    else Except.error PyErr.valueError

/-- Conversion loop of `get_parameters` when `convert_numeric` is true:
each value passes through `parse_number`, any uncaught exception from it
would propagate (none ever does). -/
def convertParams : List (String × String) → Except PyErr (List (String × PyVal))
  | [] => Except.ok []
  | (k, v) :: rest =>
    match parse_number (PyVal.str v) with
    | Except.error e => Except.error e
    | Except.ok pv =>
      match convertParams rest with
      | Except.error e => Except.error e
      | Except.ok tl => Except.ok ((k, pv) :: tl)

/-- Translation of `ScratchRealization.get_parameters(convert_numeric)`.

The registry is filtered for `LOCALPATH == 'parameters.txt'`; the source
then evaluates `paramfile.FULLPATH.values[0]`, which raises `IndexError`
when the filtered frame is empty.  Otherwise the two-column file content
is read (all values as strings) and, when `convert_numeric` is true,
each value is passed through `parse_number`.  The returned state is the
unchanged instance (the source assigns to no attribute of `self`). -/
def ScratchRealization.get_parameters (fs : Fs) (r : ScratchRealization)
    (convert_numeric : Bool) :
    Except PyErr (List (String × PyVal) × ScratchRealization) :=
  match r.files.filter (fun f => f.localpath == "parameters.txt") with
  | [] => Except.error PyErr.indexError
  | row :: _ =>
    let raw := fs.readParams row.fullpath
    if convert_numeric then
      match convertParams raw with
      | Except.error e => Except.error e
      | Except.ok ps => Except.ok (ps, r)
    else
      Except.ok (raw.map (fun kv => (kv.1, PyVal.str kv.2)), r)

/-- Summary-file resolution step of `get_eclsum`: if the registry has
exactly one row with `FILETYPE == 'UNSMRY'` its path is used, otherwise
the source evaluates `glob.glob(join(origpath, 'eclipse/model', '*.UNSMRY'))[0]`,
which raises `IndexError` when the glob matches nothing and takes the
first match otherwise. -/
def ScratchRealization.find_unsmry (fs : Fs) (r : ScratchRealization) :
    Except PyErr String :=
  match r.files.filter (fun f => f.filetype == "UNSMRY") with
  | [row] => Except.ok row.fullpath
  | _ =>
    match fs.glob (joinPath (joinPath r.origpath "eclipse/model") "*.UNSMRY") with
    | [] => Except.error PyErr.indexError
    | f :: _ => Except.ok f

/-- Translation of `ScratchRealization.get_eclsum()`.

Returns the cached handle when `self._eclsum` is set; otherwise resolves
the summary filename, returns `None` (without caching anything) when the
resolved path does not exist, and otherwise decodes the file, stores the
handle in the cache field and returns it.  The `Nat` component counts
the decoder invocations made by the call. -/
def ScratchRealization.get_eclsum (fs : Fs) (decode : String → EclSum)
    (r : ScratchRealization) :
    Except PyErr (Option EclSum × ScratchRealization × Nat) :=
  match r.eclsum with
  | some e => Except.ok (some e, r, 0)
  | none =>
    match ScratchRealization.find_unsmry fs r with
    | Except.error e => Except.error e
    | Except.ok fn =>
      if fs.pathExists fn then
        let e := decode fn
        Except.ok (some e, { r with eclsum := some e }, 1)
      else
        Except.ok (none, r, 0)

/-- A pandas DataFrame of summary vectors: the set of column names, the
data of each column, and the date index.  `pd.DataFrame()` is the empty
table. -/
structure Table where
  cols : Finset String
  colVals : String → List ℚ
  index : List Nat

/-- The empty `pd.DataFrame()`. -/
def emptyTable : Table :=
  { cols := ∅, colVals := fun _ => [], index := [] }

/-- The `props_wildcard` argument of `get_smryvalues`: Python `None`, a
single string, or a list of strings. -/
inductive PropsWildcard
  | pyNone
  | pyStr (s : String)
  | pyList (l : List String)

/-- Argument normalization in `get_smryvalues`: a falsy argument
(`None`, empty string, empty list) becomes `[None]`, a string is
wrapped in a singleton list. -/
def normalizeProps : PropsWildcard → List (Option String)
  | PropsWildcard.pyNone => [none]
  | PropsWildcard.pyStr s => if s = "" then [none] else [some s]
  | PropsWildcard.pyList l => if l = [] then [none] else l.map some

/-- Translation of `ScratchRealization.get_smryvalues(props_wildcard)`.

When the cache is empty, `self.get_eclsum()` is invoked (its exception,
if any, propagates).  If no handle is available an empty DataFrame is
returned.  Otherwise the union of the key sets matching each wildcard is
collected into a set, and the resulting DataFrame has one column per
collected vector, indexed by the report-only dates.  The `Nat` component
counts decoder invocations. -/
def ScratchRealization.get_smryvalues (fs : Fs) (decode : String → EclSum)
    (r : ScratchRealization) (props_wildcard : PropsWildcard) :
    Except PyErr (Table × ScratchRealization × Nat) :=
  let step : Except PyErr (ScratchRealization × Nat) :=
    if r.eclsum.isSome then Except.ok (r, 0)
    else
      match ScratchRealization.get_eclsum fs decode r with
      | Except.error e => Except.error e
      | Except.ok (_, r1, n1) => Except.ok (r1, n1)
  match step with
  | Except.error e => Except.error e
  | Except.ok (r1, n1) =>
    match r1.eclsum with
    | none => Except.ok (emptyTable, r1, n1)
    | some e =>
      let props : Finset String :=
        (normalizeProps props_wildcard).foldl
          (fun acc p => acc ∪ (e.keys p).toFinset) ∅
      Except.ok
        ({ cols := props,
           colVals := fun p => if p ∈ props then e.values p else [],
           index := e.dates }, r1, n1)

/-- All nonempty-to-empty suffixes of a character list, longest first. -/
def charTails : List Char → List (List Char)
  | [] => [[]]
  | c :: rest => (c :: rest) :: charTails rest

/-- Wildcard matching over vector names as provided by the decoder
collaborator: `*` matches any (possibly empty) run, `?` any single
character, other characters match themselves. -/
def globMatch : List Char → List Char → Bool
  | [], s => s.isEmpty
  | '*' :: ps, s => (charTails s).any (fun t => globMatch ps t)
  | '?' :: ps, s =>
    match s with
    | [] => false
    | _ :: s2 => globMatch ps s2
  | p :: ps, s =>
    match s with
    | [] => false
    | c :: s2 => p == c && globMatch ps s2

/-- Wildcard matching on strings. -/
def fnmatchStr (pat v : String) : Bool :=
  globMatch pat.data v.data

/-- A decoder handle over a fixed list of vector names, with `keys`
performing the collaborator's wildcard filtering (all names when the
pattern is Python `None`). -/
def EclSum.ofVectors (vs : List String) (vals : String → List ℚ) (ds : List Nat) : EclSum :=
  { keys := fun pat =>
      match pat with
      | none => vs
      | some p => vs.filter (fun v => fnmatchStr p v)
    values := vals
    dates := ds }

/-- State of a `VirtualRealization` instance.  The source `__init__`
stores only the description.  The `data` field is the dict of named
tables documented by the class docstring ("available as dataframes in a
dict accessed by the localpath"); no constructor argument fills it, so
it is empty at construction. -/
structure VirtualRealization where
  description : String
  data : List (String × List (String × PyVal))

/-- Translation of `VirtualRealization.__init__(path, description)`:
`self._description = ''` and then, when `description` is truthy (a
nonempty string), `self._description = description`.  The `path`
argument is informational only and the filesystem collaborator `fs` is
never consulted. -/
def VirtualRealization.init (fs : Fs) (path : Option String) (description : Option String) :
    VirtualRealization :=
  let desc :=
    match description with
    | some d => if d = "" then "" else d
    | none => ""
  { description := desc, data := [] }

/-- Modelled from the spec: the parameters mapping of a virtual
realization is absent from the source file (the class in `src/` holds
only the description); section 4.3 of the spec says the query surface is
backed by the tables supplied at construction, so the mapping is the
`parameters.txt` entry of the table dict, and empty when that entry is
absent.  No filesystem access is involved. -/
def VirtualRealization.parameters (fs : Fs) (v : VirtualRealization) :
    List (String × PyVal) :=
  (v.data.lookup "parameters.txt").getD []

/-- Example decoder fixture: vector names of the spec's wildcard test. -/
def vsEx : List String := ["FOPT", "FOPR", "WOPR"]

/-- Example per-vector report-only values. -/
def valsEx : String → List ℚ := fun _ => [1, 2]

/-- Example report-only dates. -/
def dsEx : List Nat := [10, 20]

/-- Example decoded summary handle. -/
def eclsumEx : EclSum := EclSum.ofVectors vsEx valsEx dsEx

/-- Example decoder collaborator: decodes any path to `eclsumEx`. -/
def decodeEx : String → EclSum := fun _ => eclsumEx

/-- Example filesystem: only `d/realization-3/STATUS` exists, every glob
is empty. -/
def fsC1 : Fs :=
  { abspath := fun s => s,
    pathExists := fun q => q == "d/realization-3/STATUS",
    glob := fun _ => [],
    readParams := fun _ => [] }

/-- Example index matcher: the directory `d/realization-3` has index 3. -/
def rxC1 : String → Option Int :=
  fun s => if s == "d/realization-3" then some 3 else none

/-- The realization produced by constructing on `fsC1`. -/
def rC1 : ScratchRealization :=
  { origpath := "d/realization-3", index := 3,
    files := [{ fullpath := "d/realization-3/STATUS", filetype := "STATUS",
                localpath := "STATUS" }],
    eclsum := none }

/-- Same realization with a cached summary handle. -/
def rCached : ScratchRealization :=
  { rC1 with eclsum := some eclsumEx }

/-- A realization whose registry contains a discovered UNSMRY file. -/
def rReg : ScratchRealization :=
  { origpath := "d", index := 0,
    files := [{ fullpath := "d/STATUS", filetype := "STATUS", localpath := "STATUS" },
              { fullpath := "d/x.UNSMRY", filetype := "UNSMRY", localpath := "x.UNSMRY" }],
    eclsum := none }

/-- Filesystem on which no path exists (the registered UNSMRY file has
disappeared). -/
def fsGone : Fs :=
  { abspath := fun s => s, pathExists := fun _ => false,
    glob := fun _ => [], readParams := fun _ => [] }

/-- Filesystem on which every path exists. -/
def fsHave : Fs :=
  { abspath := fun s => s, pathExists := fun _ => true,
    glob := fun _ => [], readParams := fun _ => [("A", "1")] }

theorem foldl_union_filter_eq (vs : List String) (m : String → String → Bool)
    (pats : List String) (acc : Finset String) :
    pats.foldl (fun a pt => a ∪ (vs.filter (fun v => m pt v)).toFinset) acc
      = acc ∪ (vs.filter (fun v => pats.any (fun pt => m pt v))).toFinset := by
  induction pats generalizing acc with
  | nil => simp
  | cons p ps ih =>
    rw [List.foldl_cons, ih]
    ext x
    simp only [Finset.mem_union, List.mem_toFinset, List.mem_filter, List.any_cons,
      Bool.or_eq_true]
    tauto

/-- C1: Construction of an on-disk realization raises an error if and
only if the index pattern fails to match the absolute path or the STATUS
marker file is absent from the directory; for every directory where the
pattern matches and STATUS is present, construction succeeds and the
file registry contains exactly one record tagged as the status entry. -/
theorem scratch_init_ok_iff (fs : Fs) (rx : String → Option Int) (p : String) :
    ((∃ r, ScratchRealization.init fs rx p = Except.ok r) ↔
      ((rx (fs.abspath p)).isSome = true ∧
        fs.pathExists (joinPath (fs.abspath p) "STATUS") = true)) ∧
    (∀ r, ScratchRealization.init fs rx p = Except.ok r →
      (r.files.filter (fun f => f.filetype == "STATUS")).length = 1) := by
  cases hrx : rx (fs.abspath p) with
  | none =>
    constructor
    · constructor
      · rintro ⟨r, hr⟩
        simp [ScratchRealization.init, hrx] at hr
      · rintro ⟨h1, h2⟩
        simp [hrx] at h1
    · intro r hr
      simp [ScratchRealization.init, hrx] at hr
  | some idx =>
    cases hst : fs.pathExists (joinPath (fs.abspath p) "STATUS") with
    | false =>
      constructor
      · constructor
        · rintro ⟨r, hr⟩
          simp [ScratchRealization.init, hrx, hst] at hr
        · rintro ⟨h1, h2⟩
          simp at h2
      · intro r hr
        simp [ScratchRealization.init, hrx, hst] at hr
    | true =>
      constructor
      · simp [ScratchRealization.init, hrx, hst]
      · intro r hr
        cases hjob : fs.pathExists (joinPath (fs.abspath p) "jobs.json") <;>
          cases hpar : fs.pathExists (joinPath (fs.abspath p) "parameters.txt") <;>
          simp [ScratchRealization.init, hrx, hst, hjob, hpar] at hr <;>
          subst hr <;>
          rfl

/-- Witness for C1: on the concrete valid directory `d/realization-3`
construction succeeds and the registry has exactly one status entry. -/
theorem scratch_init_ok_iff_witness :
    (∃ r, ScratchRealization.init fsC1 rxC1 "d/realization-3" = Except.ok r) ∧
    (rC1.files.filter (fun f => f.filetype == "STATUS")).length = 1 :=
  ⟨⟨rC1, by rfl⟩,
    (scratch_init_ok_iff fsC1 rxC1 "d/realization-3").2 rC1 (by rfl)⟩

/-- C2 (code bug): on a realization with no UNSMRY file in the registry
and no summary file on disk (empty glob), `get_smryvalues` does not
return an empty table: the expression `glob.glob(...)[0]` inside
`get_eclsum` raises `IndexError`, which propagates out of
`get_smryvalues`, contradicting the docstring "Empty dataframe if no
summary file data available". -/
theorem get_smryvalues_missing_summary_raises :
    ScratchRealization.get_smryvalues fsC1 decodeEx rC1 PropsWildcard.pyNone
      = Except.error PyErr.indexError := by
  rfl

/-- C3: the summary file is decoded at most once per instance: with a
cached handle, `get_eclsum` returns it with zero decoder invocations and
`get_smryvalues` performs zero decoder invocations and leaves the state
unchanged; any `get_eclsum` call that produces a handle leaves that
handle in the cache, so every subsequent call is such a zero-decode
cache hit. -/
theorem eclsum_decoded_at_most_once :
    (∀ fs decode (r : ScratchRealization) e, r.eclsum = some e →
      ScratchRealization.get_eclsum fs decode r = Except.ok (some e, r, 0) ∧
      ∀ pw, ∃ t, ScratchRealization.get_smryvalues fs decode r pw = Except.ok (t, r, 0)) ∧
    (∀ fs decode (r : ScratchRealization) e r2 n,
      ScratchRealization.get_eclsum fs decode r = Except.ok (some e, r2, n) →
      r2.eclsum = some e) ∧
    (∀ fs decode (r : ScratchRealization) e r2 n,
      ScratchRealization.get_eclsum fs decode r = Except.ok (some e, r2, n) →
      ScratchRealization.get_eclsum fs decode r2 = Except.ok (some e, r2, 0) ∧
      ∀ pw, ∃ t, ScratchRealization.get_smryvalues fs decode r2 pw = Except.ok (t, r2, 0)) := by
  have hcached : ∀ fs decode (r : ScratchRealization) e, r.eclsum = some e →
      ScratchRealization.get_eclsum fs decode r = Except.ok (some e, r, 0) ∧
      ∀ pw, ∃ t, ScratchRealization.get_smryvalues fs decode r pw = Except.ok (t, r, 0) := by
    intro fs d r e h
    constructor
    · simp [ScratchRealization.get_eclsum, h]
    · intro pw
      apply Exists.intro
      simp [ScratchRealization.get_smryvalues, h]
      rfl
  have hpost : ∀ fs decode (r : ScratchRealization) e r2 n,
      ScratchRealization.get_eclsum fs decode r = Except.ok (some e, r2, n) →
      r2.eclsum = some e := by
    intro fs d r e r2 n h
    cases hc : r.eclsum with
    | some e0 =>
      simp [ScratchRealization.get_eclsum, hc] at h
      rw [← h.2.1, hc, h.1]
    | none =>
      rw [ScratchRealization.get_eclsum, hc] at h
      cases hf : ScratchRealization.find_unsmry fs r with
      | error err =>
        rw [hf] at h
        simp at h
      | ok fn =>
        rw [hf] at h
        dsimp only at h
        cases hex : fs.pathExists fn with
        | false =>
          rw [hex] at h
          simp at h
        | true =>
          rw [hex] at h
          simp at h
          rw [← h.2.1, h.1]
  refine ⟨hcached, hpost, ?_⟩
  intro fs d r e r2 n h
  exact hcached fs d r2 e (hpost fs d r e r2 n h)

/-- Witness for C3: a concrete realization with a cached handle returns
it from `get_eclsum` with zero decoder invocations. -/
theorem eclsum_decoded_at_most_once_witness :
    rCached.eclsum = some eclsumEx ∧
    ScratchRealization.get_eclsum fsC1 decodeEx rCached
      = Except.ok (some eclsumEx, rCached, 0) :=
  ⟨rfl, (eclsum_decoded_at_most_once.1 fsC1 decodeEx rCached eclsumEx rfl).1⟩

/-- C4 counterexample: `parse_number("3.0")` evaluates to the float 3.0
(text input is never collapsed to an integer by the source), not to the
integer 3 required by the claim. -/
theorem parse_number_string_collapse_counterexample :
    parse_number (PyVal.str "3.0") = Except.ok (PyVal.float 3) ∧
    Except.ok (PyVal.float 3) ≠ (Except.ok (PyVal.int 3) : Except PyErr PyVal) := by
  constructor
  · rfl
  · intro hcontra
    injection hcontra with h1
    exact PyVal.noConfusion h1

/-- C4 (amended): coerce("3") = 3 (integer); coerce("3.0") = 3.0 (real:
the real-with-no-fraction collapse does not apply to text input);
coerce("3.5") = 3.5 (real, written `mkRat 7 2`); coerce("abc") = "abc"
unchanged; coerce(2.0) = 2 (integer: the collapse applies to input
already of real type); coerce(5) = 5; and for text input integer parsing
is attempted first, then real parsing, with the original text returned
on failure of both. -/
theorem parse_number_spec_amended :
    parse_number (PyVal.str "3") = Except.ok (PyVal.int 3) ∧
    parse_number (PyVal.str "3.0") = Except.ok (PyVal.float 3) ∧
    parse_number (PyVal.str "3.5") = Except.ok (PyVal.float (mkRat 7 2)) ∧
    parse_number (PyVal.str "abc") = Except.ok (PyVal.str "abc") ∧
    parse_number (PyVal.float 2) = Except.ok (PyVal.int 2) ∧
    parse_number (PyVal.int 5) = Except.ok (PyVal.int 5) ∧
    (∀ s i, pyIntParse s = some i → parse_number (PyVal.str s) = Except.ok (PyVal.int i)) ∧
    (∀ s q, pyIntParse s = none → pyFloatParse s = some q →
      parse_number (PyVal.str s) = Except.ok (PyVal.float q)) ∧
    (∀ s, pyIntParse s = none → pyFloatParse s = none →
      parse_number (PyVal.str s) = Except.ok (PyVal.str s)) := by
  refine ⟨rfl, rfl, rfl, rfl, rfl, rfl, ?_, ?_, ?_⟩
  · intro s i h
    simp [parse_number, h]
  · intro s q h1 h2
    simp [parse_number, h1, h2]
  · intro s h1 h2
    simp [parse_number, h1, h2]

/-- Witness for C4 (amended): the integer-first parse path at the
concrete text "42". -/
theorem parse_number_spec_amended_witness :
    pyIntParse "42" = some 42 ∧
    parse_number (PyVal.str "42") = Except.ok (PyVal.int 42) :=
  ⟨by rfl, parse_number_spec_amended.2.2.2.2.2.2.1 "42" 42 (by rfl)⟩

/-- C5: `parse_number` returns a value and never raises, for every input
(integer, real or text): all `ValueError`s of the inner parsers are
caught by the source's try/except chain. -/
theorem parse_number_never_raises (v : PyVal) :
    ∃ r, parse_number v = Except.ok r := by
  cases v with
  | int i => exact ⟨PyVal.int i, rfl⟩
  | float q =>
    by_cases hq : mkRat (pyTrunc q) 1 = q
    · exact ⟨PyVal.int (pyTrunc q), by simp only [parse_number]; rw [if_pos hq]⟩
    · exact ⟨PyVal.float q, by simp only [parse_number]; rw [if_neg hq]⟩
  | str s =>
    cases h1 : pyIntParse s with
    | some i => exact ⟨PyVal.int i, by simp [parse_number, h1]⟩
    | none =>
      cases h2 : pyFloatParse s with
      | some q => exact ⟨PyVal.float q, by simp [parse_number, h1, h2]⟩
      | none => exact ⟨PyVal.str s, by simp [parse_number, h1, h2]⟩

/-- C6: with a loaded summary handle over vector names `vs`,
`get_smryvalues` resolves the deduplicated union of the vector names
matching any of the supplied wildcard patterns, and the returned table
has one column per resolved vector, indexed by the report dates;
supplying no pattern resolves all vector names; concretely, pattern
"FO*" against {FOPT, FOPR, WOPR} resolves exactly {FOPT, FOPR}. -/
theorem get_smryvalues_wildcard_union (fs : Fs) (decode : String → EclSum)
    (r : ScratchRealization) (vs : List String) (vals : String → List ℚ) (ds : List Nat)
    (h : r.eclsum = some (EclSum.ofVectors vs vals ds)) :
    (∀ pats : List String, pats ≠ [] →
      ScratchRealization.get_smryvalues fs decode r (PropsWildcard.pyList pats)
        = Except.ok
            ({ cols := (vs.filter (fun v => pats.any (fun pt => fnmatchStr pt v))).toFinset,
               colVals := fun p =>
                 if p ∈ (vs.filter (fun v => pats.any (fun pt => fnmatchStr pt v))).toFinset
                 then vals p else [],
               index := ds }, r, 0)) ∧
    (ScratchRealization.get_smryvalues fs decode r PropsWildcard.pyNone
      = Except.ok
          ({ cols := vs.toFinset,
             colVals := fun p => if p ∈ vs.toFinset then vals p else [],
             index := ds }, r, 0)) ∧
    (vsEx.filter (fun v => (["FO*"].any (fun pt => fnmatchStr pt v))) = ["FOPT", "FOPR"]) := by
  refine ⟨?_, ?_, by decide⟩
  · intro pats hp
    have hprops :
        (normalizeProps (PropsWildcard.pyList pats)).foldl
          (fun acc p => acc ∪ ((EclSum.ofVectors vs vals ds).keys p).toFinset) ∅
        = (vs.filter (fun v => pats.any (fun pt => fnmatchStr pt v))).toFinset := by
      simp only [normalizeProps]
      rw [if_neg hp, List.foldl_map]
      dsimp only [EclSum.ofVectors]
      rw [foldl_union_filter_eq vs (fun pt v => fnmatchStr pt v) pats ∅, Finset.empty_union]
    simp only [ScratchRealization.get_smryvalues, h, Option.isSome_some, if_true]
    dsimp only [EclSum.ofVectors]
    dsimp only [EclSum.ofVectors] at hprops
    rw [hprops]
  · have hprops :
        (normalizeProps PropsWildcard.pyNone).foldl
          (fun acc p => acc ∪ ((EclSum.ofVectors vs vals ds).keys p).toFinset) ∅
        = vs.toFinset := by
      dsimp only [normalizeProps, EclSum.ofVectors, List.foldl]
      exact Finset.empty_union _
    simp only [ScratchRealization.get_smryvalues, h, Option.isSome_some, if_true]
    dsimp only [EclSum.ofVectors]
    dsimp only [EclSum.ofVectors] at hprops
    rw [hprops]

/-- Witness for C6: the concrete wildcard "FO*" resolved against the
handle exposing {FOPT, FOPR, WOPR}. -/
theorem get_smryvalues_wildcard_union_witness :
    rCached.eclsum = some (EclSum.ofVectors vsEx valsEx dsEx) ∧
    ScratchRealization.get_smryvalues fsC1 decodeEx rCached (PropsWildcard.pyList ["FO*"])
      = Except.ok
          ({ cols := (vsEx.filter (fun v => (["FO*"].any (fun pt => fnmatchStr pt v)))).toFinset,
             colVals := fun p =>
               if p ∈ (vsEx.filter (fun v => (["FO*"].any (fun pt => fnmatchStr pt v)))).toFinset
               then valsEx p else [],
             index := dsEx }, rCached, 0) :=
  ⟨rfl,
    (get_smryvalues_wildcard_union fsC1 decodeEx rCached vsEx valsEx dsEx rfl).1
      ["FO*"] (by decide)⟩

/-- C7 (code bug): on a realization whose registry has no parameters
file entry, `get_parameters` raises `IndexError` (the source evaluates
`paramfile.FULLPATH.values[0]` on an empty selection), not the clear
domain-level "no parameters file registered" error the claim requires. -/
theorem get_parameters_unregistered_raises_indexerror :
    ScratchRealization.get_parameters fsC1 rC1 true = Except.error PyErr.indexError := by
  rfl

/-- C8: when `get_eclsum` resolves a summary filename whose path does
not exist, it returns the no-data sentinel without raising and without
mutating the cache field: the instance state is returned unchanged and
the decoder is not invoked, so failure is not memoized and a subsequent
call attempts the load again. -/
theorem get_eclsum_missing_file_no_cache (fs : Fs) (decode : String → EclSum)
    (r : ScratchRealization) (fn : String) (h0 : r.eclsum = none)
    (h1 : ScratchRealization.find_unsmry fs r = Except.ok fn)
    (h2 : fs.pathExists fn = false) :
    ScratchRealization.get_eclsum fs decode r = Except.ok (none, r, 0) := by
  simp [ScratchRealization.get_eclsum, h0, h1, h2]

/-- Witness for C8: a registered UNSMRY path that has disappeared from
the filesystem. -/
theorem get_eclsum_missing_file_no_cache_witness :
    rReg.eclsum = none ∧
    ScratchRealization.find_unsmry fsGone rReg = Except.ok "d/x.UNSMRY" ∧
    fsGone.pathExists "d/x.UNSMRY" = false ∧
    ScratchRealization.get_eclsum fsGone decodeEx rReg = Except.ok (none, rReg, 0) :=
  ⟨rfl, rfl, rfl,
    get_eclsum_missing_file_no_cache fsGone decodeEx rReg "d/x.UNSMRY" rfl rfl rfl⟩

/-- C9: a virtual realization constructed with only a description has an
empty parameter mapping; construction and the parameter query are
independent of the filesystem collaborator (no read is ever attempted);
and the description defaults to empty text when none is supplied. -/
theorem virtual_realization_detached :
    (∀ fs1 fs2 path descr,
      VirtualRealization.init fs1 path descr = VirtualRealization.init fs2 path descr) ∧
    (∀ fs1 fs2 v,
      VirtualRealization.parameters fs1 v = VirtualRealization.parameters fs2 v) ∧
    (∀ fs path descr,
      VirtualRealization.parameters fs (VirtualRealization.init fs path descr) = []) ∧
    (∀ fs path, (VirtualRealization.init fs path none).description = "") :=
  ⟨fun _ _ _ _ => rfl, fun _ _ _ => rfl, fun _ _ _ => rfl, fun _ _ => rfl⟩

/-- C10: after construction, no accessor modifies the file registry:
`get_parameters` returns the instance state unchanged; `get_eclsum`
preserves the registry, original path and index, returns the state
unchanged whenever no decode happened, and on a successful decode
changes only the summary-cache field; `get_smryvalues` preserves the
registry, original path and index. -/
theorem accessors_preserve_registry :
    (∀ fs (r : ScratchRealization) b out r2,
      ScratchRealization.get_parameters fs r b = Except.ok (out, r2) → r2 = r) ∧
    (∀ fs decode (r : ScratchRealization) res r2 n,
      ScratchRealization.get_eclsum fs decode r = Except.ok (res, r2, n) →
      r2.files = r.files ∧ r2.origpath = r.origpath ∧ r2.index = r.index ∧
      (n = 0 → r2 = r) ∧
      (∀ e, res = some e → n = 1 → r2 = { r with eclsum := some e })) ∧
    (∀ fs decode (r : ScratchRealization) pw t r2 n,
      ScratchRealization.get_smryvalues fs decode r pw = Except.ok (t, r2, n) →
      r2.files = r.files ∧ r2.origpath = r.origpath ∧ r2.index = r.index) := by
  have hecl : ∀ fs decode (r : ScratchRealization) res r2 n,
      ScratchRealization.get_eclsum fs decode r = Except.ok (res, r2, n) →
      r2.files = r.files ∧ r2.origpath = r.origpath ∧ r2.index = r.index ∧
      (n = 0 → r2 = r) ∧
      (∀ e, res = some e → n = 1 → r2 = { r with eclsum := some e }) := by
    intro fs d r res r2 n h
    cases hc : r.eclsum with
    | some e0 =>
      simp [ScratchRealization.get_eclsum, hc] at h
      obtain ⟨h1, h2, h3⟩ := h
      subst h2
      exact ⟨rfl, rfl, rfl, fun _ => rfl,
        fun e _ hn1 => absurd (h3.trans hn1) (by decide)⟩
    | none =>
      rw [ScratchRealization.get_eclsum, hc] at h
      cases hf : ScratchRealization.find_unsmry fs r with
      | error err =>
        rw [hf] at h
        simp at h
      | ok fn =>
        rw [hf] at h
        dsimp only at h
        cases hex : fs.pathExists fn with
        | false =>
          rw [hex] at h
          simp at h
          obtain ⟨h1, h2, h3⟩ := h
          subst h2
          exact ⟨rfl, rfl, rfl, fun _ => rfl,
            fun e he _ => absurd (h1.trans he) (by simp)⟩
        | true =>
          rw [hex] at h
          simp at h
          obtain ⟨h1, h2, h3⟩ := h
          subst h2
          refine ⟨rfl, rfl, rfl, fun h0 => absurd (h3.trans h0) (by decide), ?_⟩
          intro e he _
          rw [← h1] at he
          injection he with he
          rw [he]
  refine ⟨?_, hecl, ?_⟩
  · intro fs r b out r2 h
    unfold ScratchRealization.get_parameters at h
    cases hf : r.files.filter (fun f => f.localpath == "parameters.txt") with
    | nil =>
      rw [hf] at h
      simp at h
    | cons row rest =>
      rw [hf] at h
      dsimp only at h
      cases b with
      | true =>
        rw [if_pos rfl] at h
        cases hcp : convertParams (fs.readParams row.fullpath) with
        | error err =>
          rw [hcp] at h
          simp at h
        | ok ps =>
          rw [hcp] at h
          simp at h
          exact h.2.symm
      | false =>
        simp at h
        exact h.2.symm
  · intro fs d r pw t r2 n h
    unfold ScratchRealization.get_smryvalues at h
    cases hc : r.eclsum with
    | some e =>
      simp [hc] at h
      obtain ⟨h1, h2, h3⟩ := h
      subst h2
      exact ⟨rfl, rfl, rfl⟩
    | none =>
      simp only [hc, Option.isSome_none, Bool.false_eq_true, if_false] at h
      cases hge : ScratchRealization.get_eclsum fs d r with
      | error err =>
        rw [hge] at h
        simp at h
      | ok trip =>
        obtain ⟨res, r1, n1⟩ := trip
        rw [hge] at h
        dsimp only at h
        have hfr := hecl fs d r res r1 n1 hge
        cases hc1 : r1.eclsum with
        | none =>
          rw [hc1] at h
          simp at h
          obtain ⟨h1, h2, h3⟩ := h
          subst h2
          exact ⟨hfr.1, hfr.2.1, hfr.2.2.1⟩
        | some e1 =>
          rw [hc1] at h
          simp at h
          obtain ⟨h1, h2, h3⟩ := h
          subst h2
          exact ⟨hfr.1, hfr.2.1, hfr.2.2.1⟩

/-- Witness for C10: a concrete successful decode mutates only the
summary-cache field. -/
theorem accessors_preserve_registry_witness :
    ScratchRealization.get_eclsum fsHave decodeEx rReg
      = Except.ok (some eclsumEx, { rReg with eclsum := some eclsumEx }, 1) ∧
    ({ rReg with eclsum := some eclsumEx } : ScratchRealization).files = rReg.files ∧
    ({ rReg with eclsum := some eclsumEx } : ScratchRealization).origpath = rReg.origpath ∧
    ({ rReg with eclsum := some eclsumEx } : ScratchRealization).index = rReg.index := by
  have happ := accessors_preserve_registry.2.1 fsHave decodeEx rReg (some eclsumEx)
    { rReg with eclsum := some eclsumEx } 1 rfl
  exact ⟨rfl, happ.1, happ.2.1, happ.2.2.1⟩
